import Mathlib

/-!
# Verification of the domain-availability-checker worker

A shallow embedding of `src/index.ts`: a Cloudflare-style worker that, per
invocation, parses a comma-separated domain list from configuration, performs
one DNS-over-HTTPS lookup per domain against `dns.google/resolve`, classifies
each numeric DNS status code into an availability verdict, aggregates the
per-domain results, notifies a Discord webhook when available domains exist,
and serializes an HTTP reply.

The ambient network is modelled as an oracle: each outbound DNS call is given
by a `FetchOutcome` describing what the transport did (fetch rejected, non-ok
HTTP status, unparseable body, or a parsed JSON body with an optional `Status`
field).  The batch loop consults an oracle indexed by the number of calls made
so far, so that re-running a batch against an unchanged network is expressible.
The webhook `fetch` inside `sendDiscordMessage` is a second oracle (resolve,
or reject with a thrown value) — its rejection propagates to the handler's
outer catch.  The `results` object is read through the ECMA-262 property
iteration order: array-index-like string keys first in ascending numeric
order, then the remaining keys in insertion order.
-/

namespace DomainChecker

/-- What a single outbound `fetch` of the DNS-over-HTTPS endpoint did, as seen
by `checkDomainAvailability`:

* `netError msg` — the `fetch` promise rejected (network exception); `msg` is
  `e.message` when the thrown value was an `Error` instance, `none` otherwise;
* `httpError status statusText` — a response arrived with `response.ok` false;
* `parseError msg` — `response.json()` rejected (body not valid JSON), with
  the same `Error`-message convention;
* `ok st` — the body parsed; `st` is the numeric `Status` field when present
  (`none` models a parsed JSON object lacking a `Status` field, which the
  untyped cast `as DNSResponse` does not rule out). -/
inductive FetchOutcome where
  | netError (msg : Option String)
  | httpError (status : Nat) (statusText : String)
  | parseError (msg : Option String)
  | ok (st : Option Int)
deriving DecidableEq, Repr

/-- The result object returned by `checkDomainAvailability`:
`{ success: boolean; available?: boolean; error?: string }`.  Every return
site of the source sets `available`, so it is modelled as a plain `Bool`;
`error` is absent exactly on the success path. -/
structure CheckResult where
  success : Bool
  available : Bool
  error : Option String
deriving DecidableEq, Repr

/-- `checkDomainAvailability(domain, env)` from `src/index.ts` (lines 32–90),
with the ambient network call replaced by its observed `FetchOutcome`.

The guard `!domain || typeof domain !== "string"` rejects exactly the empty
string in this typed embedding (every other string is truthy in JS).  After
the guard, the source matches `data.Status` against `SERVFAIL = 2`, then
`FORMERR = 1`, and otherwise succeeds with `available = (Status === 3)`
(`NXDOMAIN`).  Both a rejected `fetch` and a rejected `response.json()` land
in the single `catch` block producing the `DNS lookup error: …` message. -/
def checkDomainAvailability (domain : String) (net : FetchOutcome) : CheckResult :=
  if domain = "" then
    { success := false, available := false, error := some "Invalid domain name" }
  else
    match net with
    | .netError msg =>
        { success := false, available := false,
          error := some ("DNS lookup error: " ++ msg.getD "Unknown error") }
    | .httpError status statusText =>
        { success := false, available := false,
          error := some ("DNS lookup failed: " ++ statusText ++ " (" ++ toString status ++ ")") }
    | .parseError msg =>
        { success := false, available := false,
          error := some ("DNS lookup error: " ++ msg.getD "Unknown error") }
    | .ok st =>
        if st = some 2 then
          { success := false, available := false,
            error := some "DNS server failed to respond" }
        else if st = some 1 then
          { success := false, available := false,
            error := some "DNS query format error" }
        else
          { success := true, available := st == some 3, error := none }

/-- The spec's `LookupOutcome` tagged variant. -/
inductive LookupOutcome where
  | Available
  | Unavailable
  | Failed (reason : String)
deriving DecidableEq, Repr

/-- Classify a `CheckResult` as one of the spec's three outcomes; `none` when
the result object is ill-formed (failure with no error message attached). -/
def outcomeOf (r : CheckResult) : Option LookupOutcome :=
  if r.success then
    if r.available then some .Available else some .Unavailable
  else
    match r.error with
    | some e => some (.Failed e)
    | none => none

/-- `true` on the transport-level faults of the spec: non-success HTTP status,
network exception thrown by fetch, and a response body `response.json()`
cannot parse. -/
def FetchOutcome.isTransportFault : FetchOutcome → Bool
  | .netError _ => true
  | .httpError _ _ => true
  | .parseError _ => true
  | .ok _ => false

/-- JS `String.prototype.split(",")` on the character list: every comma is a
separator, so `"a,b"` gives `["a", "b"]`, `""` gives `[""]` and `"a,"` gives
`["a", ""]`.  `cur` holds the characters of the current piece, reversed. -/
def jsSplitComma : List Char → List Char → List String
  | [], cur => [String.mk cur.reverse]
  | c :: rest, cur =>
      if c = ',' then String.mk cur.reverse :: jsSplitComma rest []
      else jsSplitComma rest (c :: cur)

/-- JS `String.prototype.trim()`: drop whitespace from both ends. -/
def jsTrim (cs : List Char) : List Char :=
  ((cs.dropWhile Char.isWhitespace).reverse.dropWhile Char.isWhitespace).reverse

/-- `getDomainList(env)` from `src/index.ts` (lines 23–30).  `env.DOMAINS` is
`none` when the environment variable is unset; the JS guard `!env.DOMAINS`
also fires on the empty string.  Otherwise the string is split on `","`, each
piece trimmed and lower-cased (`Char.toLower`, matching `toLowerCase()` on
the ASCII domain alphabet), and empty pieces dropped.  The thrown `Error`
becomes the `Except.error` case. -/
def getDomainList (DOMAINS : Option String) : Except String (List String) :=
  match DOMAINS with
  | none => .error "DOMAINS environment variable is not set"
  | some s =>
      if s = "" then .error "DOMAINS environment variable is not set"
      else .ok (((jsSplitComma s.data []).map
        (fun d => String.mk ((jsTrim d.data).map Char.toLower))).filter
        (fun d => d.length > 0))

/-- One value of the `results` record built by the handler:
`{ available: boolean; error?: string }`. -/
structure DomainResult where
  available : Bool
  error : Option String
deriving DecidableEq, Repr

/-- JS object property assignment `results[domain] = v` on a string-keyed
record, modelled on an insertion-ordered association list: an existing key is
updated in place (its position among the keys is kept), a new key is appended
at the end.  This is exactly the iteration-order rule for non-index string
keys of a JS object. -/
def recordSet (m : List (String × DomainResult)) (k : String) (v : DomainResult) :
    List (String × DomainResult) :=
  if m.any (fun p => p.1 = k) then
    m.map (fun p => if p.1 = k then (k, v) else p)
  else
    m ++ [(k, v)]

/-- The `DomainResult` the loop body stores for one lookup: on failure
`{ available: false, error: result.error }`, on success
`{ available: result.available ?? false }` (and `available` is always set by
the resolver, so `?? false` is the identity). -/
def mkDomainResult (r : CheckResult) : DomainResult :=
  if r.success then { available := r.available, error := none }
  else { available := false, error := r.error }

/-- The network oracle for one invocation: `net i d` is what the `i`-th
outbound DNS call of the run (counting from 0) observes when it queries
domain `d`. -/
def NetOracle := Nat → String → FetchOutcome

/-- One iteration of the `for (const domain of domains)` loop of the handler
(`src/index.ts` lines 109–117), acting on the accumulator
`(results, hasErrors)`; `i` is the index of the network call this iteration
performs. -/
def batchStep (net : NetOracle) (i : Nat)
    (acc : List (String × DomainResult) × Bool) (domain : String) :
    List (String × DomainResult) × Bool :=
  let r := checkDomainAvailability domain (net i domain)
  (recordSet acc.1 domain (mkDomainResult r), acc.2 || !r.success)

/-- The whole `for` loop: process the remaining domains, numbering their
network calls from `i`. -/
def batchLoop (net : NetOracle) : Nat → List String →
    List (String × DomainResult) × Bool → List (String × DomainResult) × Bool
  | _, [], acc => acc
  | i, d :: rest, acc => batchLoop net (i + 1) rest (batchStep net i acc d)

/-- The Batch Evaluator: run the loop from the initial state
`results = {}`, `hasErrors = false`, numbering network calls from 0. -/
def evaluate (net : NetOracle) (domains : List String) :
    List (String × DomainResult) × Bool :=
  batchLoop net 0 domains ([], false)

/-- The key sequence of the `results` record, in iteration order. -/
def keysOf (m : List (String × DomainResult)) : List String :=
  m.map Prod.fst

/-- The numeric value of a digit string (most significant digit first). -/
def strToNat (s : String) : Nat :=
  s.data.foldl (fun acc c => acc * 10 + (c.toNat - 48)) 0

/-- ECMA-262 array-index test for a property key: the canonical decimal
representation (digits only, no leading zero except `"0"` itself) of an
integer below `2^32 - 1`.  Such keys are iterated before all other string
keys, in ascending numeric order. -/
def isArrayIndex (s : String) : Bool :=
  match s.data with
  | [] => false
  | c :: cs =>
      (c :: cs).all Char.isDigit && (c != '0' || cs.isEmpty) &&
      decide (strToNat s < 4294967295)

/-- The property iteration order of a JS object (ECMA-262
`OrdinaryOwnPropertyKeys`), as observed by `Object.keys`, `Object.entries`
and `JSON.stringify`: array-index-like keys first in ascending numeric
order, then the remaining keys in insertion order. -/
def jsEntries (m : List (String × DomainResult)) : List (String × DomainResult) :=
  List.insertionSort (fun p q => strToNat p.1 ≤ strToNat q.1)
      (m.filter (fun p => isArrayIndex p.1)) ++
    m.filter (fun p => !isArrayIndex p.1)

/-- `Object.entries(results).filter(([_, d]) => d.available).map(([d]) => d)`
(`src/index.ts` lines 120–122): the available-domains subset of an entries
list, in entries order. -/
def availableDomains (m : List (String × DomainResult)) : List String :=
  (m.filter (fun p => p.2.available)).map Prod.fst

/-- The `message` constant of `src/index.ts` line 125. -/
def notifyMessage (avail : List String) : String :=
  "The following domains are available: " ++ String.intercalate ", " avail

/-- Lines 119–125 of `src/index.ts`: the webhook message the handler sends
for a given `results` record, `none` when no send happens (empty record or
empty available subset).  Both guards read the record through its JS
iteration order (`Object.keys` / `Object.entries`). -/
def dispatchedMessage (results : List (String × DomainResult)) : Option String :=
  if (jsEntries results).length > 0 then
    if (availableDomains (jsEntries results)).length > 0 then
      some (notifyMessage (availableDomains (jsEntries results)))
    else none
  else none

/-- The observable behaviour of one `fetch` handler invocation
(`src/index.ts` lines 102–159): the HTTP status code, the `status` field of
the JSON body, the `results` record when present (in its serialized
iteration order), the `message` / `error` body fields, and the list of
messages passed to `sendDiscordMessage` (a message is dispatched even when
its delivery `fetch` then rejects). -/
structure HandlerReply where
  httpStatus : Nat
  bodyStatus : String
  results : Option (List (String × DomainResult))
  message : Option String
  errorMsg : Option String
  notifications : List String
deriving DecidableEq, Repr

/-- What `await fetch(env.DISCORD_WEBHOOK_URL, …)` inside
`sendDiscordMessage` does for a given message: `none` when the promise
resolves (any HTTP response — the source never checks `response.ok` here),
`some err` when it rejects, with `err` the thrown `Error`'s message
(`none` inside when the thrown value is not an `Error` instance). -/
def WebhookOracle := String → Option (Option String)

/-- The aggregate reply of `src/index.ts` lines 130–146, built from the
batch outcome `res = (results, hasErrors)`:  500/`"error"` when `hasErrors`
and 200/`"success"` otherwise, the results record serialized in JS
iteration order. -/
def aggregateReply (res : List (String × DomainResult) × Bool)
    (notifs : List String) : HandlerReply :=
  { httpStatus := if res.2 then 500 else 200,
    bodyStatus := if res.2 then "error" else "success",
    results := some (jsEntries res.1),
    message := some "Domain check completed",
    errorMsg := none,
    notifications := notifs }

/-- The default export's `fetch` handler.  A `getDomainList` throw reaches
the outer `catch`, producing the top-level error reply (status 500, body
`status: "error"`, no `results`).  Otherwise the batch is evaluated and, when
the available subset is non-empty, one webhook message is dispatched from
inside the same `try`: if that `await fetch` rejects, the rejection also
reaches the outer `catch` and the invocation ends in the top-level error
reply — with no `results`, even when `hasErrors` is false, but with the
notification already dispatched.  Only when no dispatch happens, or the
dispatch resolves, is the aggregate reply of lines 130–146 returned. -/
def handler (DOMAINS : Option String) (net : NetOracle)
    (webhook : WebhookOracle) : HandlerReply :=
  match getDomainList DOMAINS with
  | .error e =>
      { httpStatus := 500, bodyStatus := "error", results := none,
        message := none, errorMsg := some e, notifications := [] }
  | .ok domains =>
      match dispatchedMessage (evaluate net domains).1 with
      | none => aggregateReply (evaluate net domains) []
      | some msg =>
          match webhook msg with
          | none => aggregateReply (evaluate net domains) [msg]
          | some err =>
              { httpStatus := 500, bodyStatus := "error", results := none,
                message := none, errorMsg := some (err.getD "Unknown error"),
                notifications := [msg] }

/-! ## Lemmas about `recordSet` (JS object assignment) -/

lemma any_key_eq (m : List (String × DomainResult)) (k : String) :
    (m.any (fun p => p.1 = k)) = true ↔ k ∈ keysOf m := by
  simp only [keysOf, List.any_eq_true, decide_eq_true_eq, List.mem_map]

lemma lookup_cons_self (k : String) (v : DomainResult)
    (m : List (String × DomainResult)) :
    List.lookup k ((k, v) :: m) = some v := by
  simp [List.lookup_cons]

lemma lookup_cons_of_ne {d k : String} (h : d ≠ k) (v : DomainResult)
    (m : List (String × DomainResult)) :
    List.lookup d ((k, v) :: m) = List.lookup d m := by
  simp [List.lookup_cons, beq_false_of_ne h]

lemma recordSet_of_mem {m : List (String × DomainResult)} {k : String}
    (v : DomainResult) (h : k ∈ keysOf m) :
    recordSet m k v = m.map (fun p => if p.1 = k then (k, v) else p) := by
  unfold recordSet
  rw [if_pos ((any_key_eq m k).2 h)]

lemma recordSet_of_not_mem {m : List (String × DomainResult)} {k : String}
    (v : DomainResult) (h : k ∉ keysOf m) :
    recordSet m k v = m ++ [(k, v)] := by
  unfold recordSet
  rw [if_neg]
  intro hc
  exact h ((any_key_eq m k).1 hc)

lemma keysOf_map_update (m : List (String × DomainResult)) (k : String)
    (v : DomainResult) :
    keysOf (m.map (fun p => if p.1 = k then (k, v) else p)) = keysOf m := by
  induction m with
  | nil => rfl
  | cons p rest ih =>
      simp only [keysOf, List.map_cons] at ih ⊢
      by_cases h : p.1 = k
      · rw [if_pos h, ih, h]
      · rw [if_neg h, ih]

lemma keysOf_recordSet (m : List (String × DomainResult)) (k : String)
    (v : DomainResult) :
    keysOf (recordSet m k v) = if k ∈ keysOf m then keysOf m else keysOf m ++ [k] := by
  by_cases h : k ∈ keysOf m
  · rw [recordSet_of_mem v h, if_pos h, keysOf_map_update]
  · rw [recordSet_of_not_mem v h, if_neg h]
    simp [keysOf]

lemma mem_keysOf_recordSet {d k : String} {m : List (String × DomainResult)}
    {v : DomainResult} :
    d ∈ keysOf (recordSet m k v) ↔ d ∈ keysOf m ∨ d = k := by
  rw [keysOf_recordSet]
  by_cases h : k ∈ keysOf m
  · rw [if_pos h]
    constructor
    · exact Or.inl
    · rintro (hd | rfl)
      · exact hd
      · exact h
  · rw [if_neg h]
    simp

lemma nodup_keysOf_recordSet {m : List (String × DomainResult)} {k : String}
    (v : DomainResult) (h : (keysOf m).Nodup) :
    (keysOf (recordSet m k v)).Nodup := by
  rw [keysOf_recordSet]
  by_cases hk : k ∈ keysOf m
  · rwa [if_pos hk]
  · rw [if_neg hk]
    refine List.Nodup.append h (List.nodup_singleton k) ?_
    intro a ha hb
    rw [List.mem_singleton] at hb
    exact hk (hb ▸ ha)

lemma lookup_map_update_self {m : List (String × DomainResult)} {k : String}
    (v : DomainResult) (h : k ∈ keysOf m) :
    List.lookup k (m.map (fun p => if p.1 = k then (k, v) else p)) = some v := by
  induction m with
  | nil => simp [keysOf] at h
  | cons p rest ih =>
      obtain ⟨pk, pv⟩ := p
      by_cases hp : pk = k
      · simp only [List.map_cons, if_pos hp]
        exact lookup_cons_self k v _
      · have hk : k ∈ keysOf rest := by
          simp only [keysOf, List.map_cons, List.mem_cons] at h
          rcases h with h | h
          · exact absurd h.symm hp
          · simpa [keysOf] using h
        simp only [List.map_cons, if_neg hp]
        rw [lookup_cons_of_ne (Ne.symm hp)]
        exact ih hk

lemma lookup_map_update_ne {m : List (String × DomainResult)} {d k : String}
    (v : DomainResult) (h : d ≠ k) :
    List.lookup d (m.map (fun p => if p.1 = k then (k, v) else p)) =
      List.lookup d m := by
  induction m with
  | nil => rfl
  | cons p rest ih =>
      obtain ⟨pk, pv⟩ := p
      by_cases hp : pk = k
      · simp only [List.map_cons, if_pos hp]
        rw [lookup_cons_of_ne h, lookup_cons_of_ne (fun hc => h (hp ▸ hc))]
        exact ih
      · simp only [List.map_cons, if_neg hp]
        by_cases hd : d = pk
        · subst hd
          rw [lookup_cons_self, lookup_cons_self]
        · rw [lookup_cons_of_ne hd, lookup_cons_of_ne hd]
          exact ih

lemma lookup_append_single_self {m : List (String × DomainResult)} {k : String}
    (v : DomainResult) (h : k ∉ keysOf m) :
    List.lookup k (m ++ [(k, v)]) = some v := by
  induction m with
  | nil => exact lookup_cons_self k v []
  | cons p rest ih =>
      obtain ⟨pk, pv⟩ := p
      have hp : k ≠ pk := by
        intro hc
        exact h (by simp [keysOf, hc])
      have hk : k ∉ keysOf rest := by
        intro hc
        refine h ?_
        simp only [keysOf, List.map_cons, List.mem_cons]
        exact Or.inr (by simpa [keysOf] using hc)
      rw [List.cons_append, lookup_cons_of_ne hp]
      exact ih hk

lemma lookup_append_single_ne {m : List (String × DomainResult)} {d k : String}
    (v : DomainResult) (h : d ≠ k) :
    List.lookup d (m ++ [(k, v)]) = List.lookup d m := by
  induction m with
  | nil => simpa using lookup_cons_of_ne h v []
  | cons p rest ih =>
      obtain ⟨pk, pv⟩ := p
      by_cases hd : d = pk
      · subst hd
        rw [List.cons_append, lookup_cons_self, lookup_cons_self]
      · rw [List.cons_append, lookup_cons_of_ne hd, lookup_cons_of_ne hd]
        exact ih

lemma lookup_recordSet_self (m : List (String × DomainResult)) (k : String)
    (v : DomainResult) :
    List.lookup k (recordSet m k v) = some v := by
  by_cases h : k ∈ keysOf m
  · rw [recordSet_of_mem v h]
    exact lookup_map_update_self v h
  · rw [recordSet_of_not_mem v h]
    exact lookup_append_single_self v h

lemma lookup_recordSet_ne {m : List (String × DomainResult)} {d k : String}
    (v : DomainResult) (h : d ≠ k) :
    List.lookup d (recordSet m k v) = List.lookup d m := by
  by_cases hm : k ∈ keysOf m
  · rw [recordSet_of_mem v hm]
    exact lookup_map_update_ne v h
  · rw [recordSet_of_not_mem v hm]
    exact lookup_append_single_ne v h

/-! ## Lemmas about the batch loop -/

lemma batchStep_fst (net : NetOracle) (i : Nat)
    (acc : List (String × DomainResult) × Bool) (d : String) :
    (batchStep net i acc d).1 =
      recordSet acc.1 d (mkDomainResult (checkDomainAvailability d (net i d))) := rfl

lemma batchStep_snd (net : NetOracle) (i : Nat)
    (acc : List (String × DomainResult) × Bool) (d : String) :
    (batchStep net i acc d).2 =
      (acc.2 || !(checkDomainAvailability d (net i d)).success) := rfl

lemma mem_keysOf_batchLoop (net : NetOracle) (xs : List String) :
    ∀ (i : Nat) (acc : List (String × DomainResult) × Bool) (d : String),
      d ∈ keysOf (batchLoop net i xs acc).1 ↔ d ∈ keysOf acc.1 ∨ d ∈ xs := by
  induction xs with
  | nil =>
      intro i acc d
      simp [batchLoop]
  | cons x rest ih =>
      intro i acc d
      rw [batchLoop, ih, batchStep_fst, mem_keysOf_recordSet, List.mem_cons]
      tauto

lemma nodup_keysOf_batchLoop (net : NetOracle) (xs : List String) :
    ∀ (i : Nat) (acc : List (String × DomainResult) × Bool),
      (keysOf acc.1).Nodup → (keysOf (batchLoop net i xs acc).1).Nodup := by
  induction xs with
  | nil =>
      intro i acc h
      exact h
  | cons x rest ih =>
      intro i acc h
      rw [batchLoop]
      exact ih _ _ (by rw [batchStep_fst]; exact nodup_keysOf_recordSet _ h)

lemma batchLoop_snd_pure (dns : String → FetchOutcome) (xs : List String) :
    ∀ (i : Nat) (acc : List (String × DomainResult) × Bool),
      (batchLoop (fun _ => dns) i xs acc).2 =
        (acc.2 || xs.any (fun d => !(checkDomainAvailability d (dns d)).success)) := by
  induction xs with
  | nil =>
      intro i acc
      simp [batchLoop]
  | cons x rest ih =>
      intro i acc
      rw [batchLoop, ih, batchStep_snd, List.any_cons, Bool.or_assoc]

lemma keysOf_batchLoop_nodup (net : NetOracle) (xs : List String) :
    ∀ (i : Nat) (acc : List (String × DomainResult) × Bool),
      xs.Nodup → (∀ x ∈ xs, x ∉ keysOf acc.1) →
      keysOf (batchLoop net i xs acc).1 = keysOf acc.1 ++ xs := by
  induction xs with
  | nil =>
      intro i acc _ _
      simp [batchLoop]
  | cons x rest ih =>
      intro i acc hnd hfresh
      have hx : x ∉ keysOf acc.1 := hfresh x (List.mem_cons_self x rest)
      have hstep : keysOf (batchStep net i acc x).1 = keysOf acc.1 ++ [x] := by
        rw [batchStep_fst, keysOf_recordSet, if_neg hx]
      have hfresh2 : ∀ y ∈ rest, y ∉ keysOf (batchStep net i acc x).1 := by
        intro y hy
        rw [hstep, List.mem_append, List.mem_singleton]
        rintro (hc | rfl)
        · exact hfresh y (List.mem_cons_of_mem x hy) hc
        · exact (List.nodup_cons.1 hnd).1 hy
      rw [batchLoop, ih _ _ (List.nodup_cons.1 hnd).2 hfresh2, hstep,
        List.append_assoc, List.singleton_append]

lemma batchLoop_append (net : NetOracle) (xs ys : List String) :
    ∀ (i : Nat) (acc : List (String × DomainResult) × Bool),
      batchLoop net i (xs ++ ys) acc =
        batchLoop net (i + xs.length) ys (batchLoop net i xs acc) := by
  induction xs with
  | nil =>
      intro i acc
      simp [batchLoop]
  | cons x rest ih =>
      intro i acc
      rw [List.cons_append, batchLoop, batchLoop, ih]
      have h : i + 1 + rest.length = i + (x :: rest).length := by
        rw [List.length_cons]
        omega
      rw [h]

lemma lookup_batchLoop_not_mem (net : NetOracle) (xs : List String) :
    ∀ (i : Nat) (acc : List (String × DomainResult) × Bool) (d : String),
      d ∉ xs →
      List.lookup d (batchLoop net i xs acc).1 = List.lookup d acc.1 := by
  induction xs with
  | nil =>
      intro i acc d _
      rfl
  | cons x rest ih =>
      intro i acc d hd
      have hdx : d ≠ x := fun hc => hd (by rw [hc]; exact List.mem_cons_self x rest)
      rw [batchLoop, ih _ _ _ (fun hc => hd (List.mem_cons_of_mem x hc)),
        batchStep_fst, lookup_recordSet_ne _ hdx]

lemma batchLoop_static {net : NetOracle} (h : ∀ i d, net i d = net 0 d)
    (xs : List String) :
    ∀ (i j : Nat) (acc : List (String × DomainResult) × Bool),
      batchLoop net i xs acc = batchLoop net j xs acc := by
  induction xs with
  | nil =>
      intro i j acc
      rfl
  | cons x rest ih =>
      intro i j acc
      have hstep : batchStep net i acc x = batchStep net j acc x := by
        unfold batchStep
        rw [h i x, h j x]
      rw [batchLoop, batchLoop, hstep, ih]

lemma mem_keysOf_evaluate (net : NetOracle) (ds : List String) (d : String) :
    d ∈ keysOf (evaluate net ds).1 ↔ d ∈ ds := by
  rw [evaluate, mem_keysOf_batchLoop]
  simp [keysOf]

lemma nodup_keysOf_evaluate (net : NetOracle) (ds : List String) :
    (keysOf (evaluate net ds).1).Nodup := by
  rw [evaluate]
  exact nodup_keysOf_batchLoop net ds 0 ([], false) (by simp [keysOf])

lemma length_evaluate (net : NetOracle) (ds : List String) :
    (evaluate net ds).1.length = ds.dedup.length := by
  have hperm : (keysOf (evaluate net ds).1).Perm ds.dedup := by
    rw [List.perm_ext_iff_of_nodup (nodup_keysOf_evaluate net ds)
      (List.nodup_dedup ds)]
    intro a
    rw [mem_keysOf_evaluate, List.mem_dedup]
  have hlen := hperm.length_eq
  rwa [keysOf, List.length_map] at hlen

/-- The available subset the handler derives for one batch run: empty when
the domain list does not parse, otherwise the available domains of the
evaluated record read in JS iteration order. -/
def derivedAvailable (DOMAINS : Option String) (net : NetOracle) : List String :=
  match getDomainList DOMAINS with
  | .error _ => []
  | .ok ds => availableDomains (jsEntries (evaluate net ds).1)

lemma jsEntries_perm (m : List (String × DomainResult)) :
    (jsEntries m).Perm m := by
  unfold jsEntries
  refine List.Perm.trans
    (List.Perm.append_right _ (List.perm_insertionSort _ _)) ?_
  exact List.filter_append_perm _ m

lemma mem_keysOf_jsEntries (m : List (String × DomainResult)) (d : String) :
    d ∈ keysOf (jsEntries m) ↔ d ∈ keysOf m :=
  ((jsEntries_perm m).map Prod.fst).mem_iff

lemma nodup_keysOf_jsEntries (m : List (String × DomainResult))
    (h : (keysOf m).Nodup) : (keysOf (jsEntries m)).Nodup :=
  (((jsEntries_perm m).map Prod.fst).nodup_iff).2 h

lemma jsEntries_of_no_index (m : List (String × DomainResult))
    (h : ∀ p ∈ m, isArrayIndex p.1 = false) : jsEntries m = m := by
  unfold jsEntries
  have h1 : m.filter (fun p => isArrayIndex p.1) = [] := by
    rw [List.filter_eq_nil_iff]
    intro p hp
    simp [h p hp]
  have h2 : m.filter (fun p => !isArrayIndex p.1) = m := by
    rw [List.filter_eq_self]
    intro p hp
    simp [h p hp]
  rw [h1, h2]
  rfl

lemma dispatchedMessage_of_empty {rs : List (String × DomainResult)}
    (hav : availableDomains (jsEntries rs) = []) :
    dispatchedMessage rs = none := by
  unfold dispatchedMessage
  by_cases h : (jsEntries rs).length > 0
  · rw [if_pos h, if_neg]
    simp [hav]
  · rw [if_neg h]

lemma dispatchedMessage_of_nonempty {rs : List (String × DomainResult)}
    {a : String} {as : List String}
    (hav : availableDomains (jsEntries rs) = a :: as) :
    dispatchedMessage rs = some (notifyMessage (a :: as)) := by
  have hne : jsEntries rs ≠ [] := by
    intro hc
    rw [hc] at hav
    exact absurd hav.symm (List.cons_ne_nil a as)
  unfold dispatchedMessage
  rw [if_pos (List.length_pos.2 hne), hav, if_pos (by simp)]

lemma handler_error (DOMAINS : Option String) (net : NetOracle)
    (webhook : WebhookOracle) (e : String)
    (herr : getDomainList DOMAINS = .error e) :
    handler DOMAINS net webhook =
      { httpStatus := 500, bodyStatus := "error", results := none,
        message := none, errorMsg := some e, notifications := [] } := by
  unfold handler
  rw [herr]

lemma handler_no_dispatch (DOMAINS : Option String) (net : NetOracle)
    (webhook : WebhookOracle) (ds : List String)
    (hok : getDomainList DOMAINS = .ok ds)
    (hav : availableDomains (jsEntries (evaluate net ds).1) = []) :
    handler DOMAINS net webhook = aggregateReply (evaluate net ds) [] := by
  simp only [handler, hok, dispatchedMessage_of_empty hav]

lemma handler_dispatch_ok (DOMAINS : Option String) (net : NetOracle)
    (webhook : WebhookOracle) (ds : List String) (a : String) (as : List String)
    (hok : getDomainList DOMAINS = .ok ds)
    (hav : availableDomains (jsEntries (evaluate net ds).1) = a :: as)
    (hwh : webhook (notifyMessage (a :: as)) = none) :
    handler DOMAINS net webhook =
      aggregateReply (evaluate net ds) [notifyMessage (a :: as)] := by
  simp only [handler, hok, dispatchedMessage_of_nonempty hav, hwh]

lemma handler_dispatch_fail (DOMAINS : Option String) (net : NetOracle)
    (webhook : WebhookOracle) (ds : List String) (a : String) (as : List String)
    (err : Option String)
    (hok : getDomainList DOMAINS = .ok ds)
    (hav : availableDomains (jsEntries (evaluate net ds).1) = a :: as)
    (hwh : webhook (notifyMessage (a :: as)) = some err) :
    handler DOMAINS net webhook =
      { httpStatus := 500, bodyStatus := "error", results := none,
        message := none, errorMsg := some (err.getD "Unknown error"),
        notifications := [notifyMessage (a :: as)] } := by
  simp only [handler, hok, dispatchedMessage_of_nonempty hav, hwh]

/-! ## Claim theorems -/

/-- C1: For every DNS response successfully fetched and parsed, the resolver
maps the numeric `Status` field as follows: Status 3 yields Available
(`success = true`, `available = true`); Status 2 yields Failed with reason
"DNS server failed to respond"; Status 1 yields Failed with reason
"DNS query format error"; every other Status value (0, 4, 5, and any
unrecognized code) yields Unavailable (`success = true`, `available = false`).
The hypothesis `domain ≠ ""` states that a lookup was actually performed (the
empty domain is rejected before any fetch). -/
theorem C1_status_code_mapping (domain : String) (s : Int) (hd : domain ≠ "") :
    (s = 3 → checkDomainAvailability domain (.ok (some s)) =
      { success := true, available := true, error := none }) ∧
    (s = 2 → checkDomainAvailability domain (.ok (some s)) =
      { success := false, available := false,
        error := some "DNS server failed to respond" }) ∧
    (s = 1 → checkDomainAvailability domain (.ok (some s)) =
      { success := false, available := false,
        error := some "DNS query format error" }) ∧
    (s ≠ 1 → s ≠ 2 → s ≠ 3 → checkDomainAvailability domain (.ok (some s)) =
      { success := true, available := false, error := none }) := by
  have hmatch : checkDomainAvailability domain (.ok (some s)) =
      (if some s = some 2 then
        ({ success := false, available := false,
           error := some "DNS server failed to respond" } : CheckResult)
      else if some s = some 1 then
        { success := false, available := false,
          error := some "DNS query format error" }
      else
        { success := true, available := (some s == some 3), error := none }) := by
    unfold checkDomainAvailability
    rw [if_neg hd]
  rw [hmatch]
  refine ⟨?_, ?_, ?_, ?_⟩
  · rintro rfl
    decide
  · rintro rfl
    decide
  · rintro rfl
    decide
  · intro h1 h2 h3
    rw [if_neg (fun hc => h2 (Option.some.inj hc)),
      if_neg (fun hc => h1 (Option.some.inj hc))]
    have hb : (some s == some (3 : Int)) = false := by
      simp [beq_eq_false_iff_ne, h3]
    rw [hb]

/-- Witness for C1 at `domain = "example.com"`, `s = 3`. -/
theorem C1_status_code_mapping_witness :
    checkDomainAvailability "example.com" (.ok (some 3)) =
      { success := true, available := true, error := none } :=
  (C1_status_code_mapping "example.com" 3 (by decide)).1 rfl

/-- C2: For every domain string and every transport behaviour (network
exception thrown by `fetch`, non-success HTTP status, body that
`response.json()` cannot parse, or a parsed body), `checkDomainAvailability`
returns a well-formed outcome that classifies as exactly one of Available,
Unavailable or Failed (its `outcomeOf` is `some`), and every transport-level
fault yields a Failed result (`success = false` with an error reason).
Exceptions cannot propagate: the embedding is a total function precisely
because every failure path of the source returns a result object. -/
theorem C2_resolver_total_and_faults_failed (domain : String) (o : FetchOutcome) :
    (∃ oc : LookupOutcome,
      outcomeOf (checkDomainAvailability domain o) = some oc) ∧
    (o.isTransportFault = true →
      (checkDomainAvailability domain o).success = false ∧
      (checkDomainAvailability domain o).error ≠ none) := by
  by_cases hd : domain = ""
  · subst hd
    refine ⟨⟨.Failed "Invalid domain name", ?_⟩, fun _ => ⟨?_, ?_⟩⟩ <;>
      simp [checkDomainAvailability, outcomeOf]
  · cases o with
    | netError msg =>
        refine ⟨⟨.Failed ("DNS lookup error: " ++ msg.getD "Unknown error"), ?_⟩,
          fun _ => ⟨?_, ?_⟩⟩ <;>
          simp [checkDomainAvailability, outcomeOf, hd]
    | httpError status statusText =>
        refine ⟨⟨.Failed ("DNS lookup failed: " ++ statusText ++ " (" ++
          toString status ++ ")"), ?_⟩, fun _ => ⟨?_, ?_⟩⟩ <;>
          simp [checkDomainAvailability, outcomeOf, hd]
    | parseError msg =>
        refine ⟨⟨.Failed ("DNS lookup error: " ++ msg.getD "Unknown error"), ?_⟩,
          fun _ => ⟨?_, ?_⟩⟩ <;>
          simp [checkDomainAvailability, outcomeOf, hd]
    | ok st =>
        refine ⟨?_, fun h => absurd h (by simp [FetchOutcome.isTransportFault])⟩
        by_cases h2 : st = some 2
        · exact ⟨.Failed "DNS server failed to respond",
            by simp [checkDomainAvailability, outcomeOf, hd, h2]⟩
        · by_cases h1 : st = some 1
          · exact ⟨.Failed "DNS query format error",
              by simp [checkDomainAvailability, outcomeOf, hd, h2, h1]⟩
          · cases hb : (st == some 3) with
            | true =>
                exact ⟨.Available,
                  by simp [checkDomainAvailability, outcomeOf, hd, h2, h1, hb]⟩
            | false =>
                exact ⟨.Unavailable,
                  by simp [checkDomainAvailability, outcomeOf, hd, h2, h1, hb]⟩

/-- C8: An empty domain argument is rejected by the resolver itself: it
returns Failed with reason exactly "Invalid domain name" (`success = false`,
`available = false`) before any network call, for every transport behaviour.
(Non-string arguments are unrepresentable in this typed embedding; the
source's `typeof domain !== "string"` guard takes the same return path.) -/
theorem C8_invalid_domain_rejected (net : FetchOutcome) :
    checkDomainAvailability "" net =
      { success := false, available := false,
        error := some "Invalid domain name" } := rfl

/-- C3 (counterexample): the claim's "iteration order equals the input
order" is false of the program.  `DOMAINS = "2,1"` parses to `["2", "1"]`,
but both keys are array-index-like, so the JS object iterates (and the reply
serializes) them in ascending numeric order `["1", "2"]` — not input order.
All lookups succeed here (NOERROR) and the webhook resolves, so no failure
path is involved. -/
theorem C3_results_cover_inputs_counterexample :
    getDomainList (some "2,1") = .ok ["2", "1"] ∧
    (handler (some "2,1") (fun _ _ => .ok (some 0)) (fun _ => none)).results =
      some [("1", { available := false, error := none }),
            ("2", { available := false, error := none })] ∧
    (["1", "2"] : List String) ≠ ["2", "1"] :=
  ⟨rfl, rfl, by decide⟩

/-- C3 (amended): provided the webhook delivery does not reject (a rejection
reaches the outer catch and erases the results from the reply), the handler's
reply carries a results record in which every parsed input domain appears,
each exactly once (the key sequence has no duplicates), and no extraneous
domain appears, regardless of the individual lookup outcomes; and for a
duplicate-free input list none of whose entries is an array-index-like key
(the normal case for domain names — ECMA-262 iterates such keys numerically
first), the record's iteration order is exactly the input order.  (Duplicate
inputs collapse to one key; claim C10's theorem covers that case.) -/
theorem C3_results_cover_inputs_amended (DOMAINS : Option String)
    (net : NetOracle) (webhook : WebhookOracle) (ds : List String)
    (hok : getDomainList DOMAINS = .ok ds)
    (hwh : ∀ msg, webhook msg = none) :
    ∃ rs, (handler DOMAINS net webhook).results = some rs ∧
      (∀ d ∈ ds, d ∈ keysOf rs) ∧
      (keysOf rs).Nodup ∧
      (∀ d ∈ keysOf rs, d ∈ ds) ∧
      (ds.Nodup → (∀ d ∈ ds, isArrayIndex d = false) → keysOf rs = ds) := by
  have hres : (handler DOMAINS net webhook).results =
      some (jsEntries (evaluate net ds).1) := by
    cases hav : availableDomains (jsEntries (evaluate net ds).1) with
    | nil =>
        rw [handler_no_dispatch DOMAINS net webhook ds hok hav]
        rfl
    | cons a as =>
        rw [handler_dispatch_ok DOMAINS net webhook ds a as hok hav (hwh _)]
        rfl
  refine ⟨jsEntries (evaluate net ds).1, hres, ?_, ?_, ?_, ?_⟩
  · intro d hd
    rw [mem_keysOf_jsEntries]
    exact (mem_keysOf_evaluate net ds d).2 hd
  · exact nodup_keysOf_jsEntries _ (nodup_keysOf_evaluate net ds)
  · intro d hd
    rw [mem_keysOf_jsEntries] at hd
    exact (mem_keysOf_evaluate net ds d).1 hd
  · intro hnd hnoidx
    have hsub : ∀ p ∈ (evaluate net ds).1, isArrayIndex p.1 = false := by
      intro p hp
      refine hnoidx p.1 ((mem_keysOf_evaluate net ds p.1).1 ?_)
      exact List.mem_map_of_mem Prod.fst hp
    rw [jsEntries_of_no_index _ hsub]
    have h := keysOf_batchLoop_nodup net ds 0 ([], false) hnd (by simp [keysOf])
    rw [evaluate]
    simpa [keysOf] using h

/-- Witness for the amended C3: two distinct non-numeric domains, all
lookups answering NOERROR, webhook resolving. -/
theorem C3_results_cover_inputs_amended_witness :
    ∃ rs, (handler (some "a.com,b.com") (fun _ _ => .ok (some 0))
        (fun _ => none)).results = some rs ∧
      (∀ d ∈ ["a.com", "b.com"], d ∈ keysOf rs) ∧
      (keysOf rs).Nodup ∧
      (∀ d ∈ keysOf rs, d ∈ ["a.com", "b.com"]) ∧
      ((["a.com", "b.com"] : List String).Nodup →
        (∀ d ∈ ["a.com", "b.com"], isArrayIndex d = false) →
        keysOf rs = ["a.com", "b.com"]) :=
  C3_results_cover_inputs_amended (some "a.com,b.com")
    (fun _ _ => .ok (some 0)) (fun _ => none) ["a.com", "b.com"]
    (by rfl) (fun _ => rfl)

/-- C4: For every input domain list and every per-domain assignment of lookup
outcomes, the batch's `hasErrors` flag is true if and only if at least one
domain's lookup returned `success = false`. -/
theorem C4_hasErrors_iff_some_failure (dns : String → FetchOutcome)
    (ds : List String) :
    (evaluate (fun _ => dns) ds).2 = true ↔
      ∃ d ∈ ds, (checkDomainAvailability d (dns d)).success = false := by
  rw [evaluate, batchLoop_snd_pure]
  simp

/-- C5: A configuration error — the `DOMAINS` variable absent or the empty
string — is fatal for the whole invocation: the handler replies with a
top-level error (HTTP 500, body status `"error"`, an error message, no
per-domain results) and performs no lookup and no notification.  The
right-hand side is a constant independent of the network oracle `net`, which
is the short-circuit: no outbound call can influence the reply. -/
theorem C5_config_error_fatal (DOMAINS : Option String) (net : NetOracle)
    (webhook : WebhookOracle)
    (h : DOMAINS = none ∨ DOMAINS = some "") :
    handler DOMAINS net webhook =
      { httpStatus := 500, bodyStatus := "error", results := none,
        message := none,
        errorMsg := some "DOMAINS environment variable is not set",
        notifications := [] } := by
  rcases h with rfl | rfl <;> rfl

/-- Witness for C5 with the variable unset. -/
theorem C5_config_error_fatal_witness :
    handler none (fun _ _ => .ok (some 3)) (fun _ => none) =
      { httpStatus := 500, bodyStatus := "error", results := none,
        message := none,
        errorMsg := some "DOMAINS environment variable is not set",
        notifications := [] } :=
  C5_config_error_fatal none (fun _ _ => .ok (some 3)) (fun _ => none)
    (Or.inl rfl)

/-- C6 (counterexample): the claim's "HTTP status 500 only when `hasErrors`
is true or on an invocation-level failure, 200 when `hasErrors` is false" is
false of the program: here the list parses, the single lookup succeeds with
NXDOMAIN (`hasErrors = false`), but the dispatched webhook `fetch` rejects;
the rejection reaches the outer catch and the reply is 500/`"error"`. -/
theorem C6_status_convention_counterexample :
    getDomainList (some "a.com") = .ok ["a.com"] ∧
    (evaluate (fun _ _ => FetchOutcome.ok (some 3)) ["a.com"]).2 = false ∧
    (handler (some "a.com") (fun _ _ => .ok (some 3))
        (fun _ => some (some "connect ECONNREFUSED"))).httpStatus = 500 ∧
    (handler (some "a.com") (fun _ _ => .ok (some 3))
        (fun _ => some (some "connect ECONNREFUSED"))).bodyStatus = "error" :=
  ⟨rfl, rfl, rfl, rfl⟩

/-- C6 (amended): the reply is always 200/`"success"` or 500/`"error"`, and
it is 200 exactly when the domain list parsed, no lookup failed
(`hasErrors = false`), and every webhook message the invocation dispatched
was delivered without its `fetch` rejecting (a rejection reaches the outer
catch and forces the 500/`"error"` reply). -/
theorem C6_status_convention_amended (DOMAINS : Option String)
    (net : NetOracle) (webhook : WebhookOracle) :
    (((handler DOMAINS net webhook).httpStatus = 200 ∧
      (handler DOMAINS net webhook).bodyStatus = "success") ∨
     ((handler DOMAINS net webhook).httpStatus = 500 ∧
      (handler DOMAINS net webhook).bodyStatus = "error")) ∧
    ((handler DOMAINS net webhook).httpStatus = 200 ↔
      ∃ ds, getDomainList DOMAINS = .ok ds ∧ (evaluate net ds).2 = false ∧
        ∀ msg ∈ (handler DOMAINS net webhook).notifications,
          webhook msg = none) := by
  cases hok : getDomainList DOMAINS with
  | error e =>
      rw [handler_error DOMAINS net webhook e hok]
      refine ⟨Or.inr ⟨rfl, rfl⟩, ⟨fun hc => by simp at hc, ?_⟩⟩
      rintro ⟨ds, hds, -⟩
      exact Except.noConfusion hds
  | ok ds =>
      cases hav : availableDomains (jsEntries (evaluate net ds).1) with
      | nil =>
          rw [handler_no_dispatch DOMAINS net webhook ds hok hav]
          cases hE : (evaluate net ds).2 with
          | false =>
              refine ⟨Or.inl ⟨by simp [aggregateReply, hE],
                by simp [aggregateReply, hE]⟩, ?_, ?_⟩
              · intro _
                exact ⟨ds, rfl, hE,
                  fun msg hmsg => absurd hmsg (by simp [aggregateReply])⟩
              · intro _
                simp [aggregateReply, hE]
          | true =>
              refine ⟨Or.inr ⟨by simp [aggregateReply, hE],
                by simp [aggregateReply, hE]⟩, ⟨fun hc => ?_, ?_⟩⟩
              · simp [aggregateReply, hE] at hc
              · rintro ⟨ds', hds', hfalse, -⟩
                injection hds' with hd
                subst hd
                rw [hE] at hfalse
                exact absurd hfalse (by decide)
      | cons a as =>
          cases hwh : webhook (notifyMessage (a :: as)) with
          | none =>
              rw [handler_dispatch_ok DOMAINS net webhook ds a as hok hav hwh]
              cases hE : (evaluate net ds).2 with
              | false =>
                  refine ⟨Or.inl ⟨by simp [aggregateReply, hE],
                    by simp [aggregateReply, hE]⟩, ?_, ?_⟩
                  · intro _
                    refine ⟨ds, rfl, hE, fun msg hmsg => ?_⟩
                    have hm : msg = notifyMessage (a :: as) := by
                      simpa [aggregateReply] using hmsg
                    rw [hm]
                    exact hwh
                  · intro _
                    simp [aggregateReply, hE]
              | true =>
                  refine ⟨Or.inr ⟨by simp [aggregateReply, hE],
                    by simp [aggregateReply, hE]⟩, ⟨fun hc => ?_, ?_⟩⟩
                  · simp [aggregateReply, hE] at hc
                  · rintro ⟨ds', hds', hfalse, -⟩
                    injection hds' with hd
                    subst hd
                    rw [hE] at hfalse
                    exact absurd hfalse (by decide)
          | some err =>
              rw [handler_dispatch_fail DOMAINS net webhook ds a as err hok hav hwh]
              refine ⟨Or.inr ⟨rfl, rfl⟩, ⟨fun hc => by simp at hc, ?_⟩⟩
              rintro ⟨ds', hds', -, hall⟩
              injection hds' with hd
              subst hd
              have hcall := hall (notifyMessage (a :: as)) (by simp)
              rw [hwh] at hcall
              exact Option.noConfusion hcall

/-- C7: For every invocation, the notifier is invoked zero times when the
batch's derived available-domains subset is empty, and exactly once when it
is non-empty, with the single message listing every available domain's name,
comma-separated, in result (= JS iteration) order.  A dispatched message
counts as the one invocation even when its delivery `fetch` then rejects —
the send happens before the rejection propagates. -/
theorem C7_notifier_invocation (DOMAINS : Option String) (net : NetOracle)
    (webhook : WebhookOracle) :
    (derivedAvailable DOMAINS net = [] →
      (handler DOMAINS net webhook).notifications = []) ∧
    (derivedAvailable DOMAINS net ≠ [] →
      (handler DOMAINS net webhook).notifications =
        [notifyMessage (derivedAvailable DOMAINS net)]) := by
  cases hok : getDomainList DOMAINS with
  | error e =>
      have hder : derivedAvailable DOMAINS net = [] := by
        unfold derivedAvailable
        rw [hok]
      rw [handler_error DOMAINS net webhook e hok, hder]
      exact ⟨fun _ => rfl, fun hne => absurd rfl hne⟩
  | ok ds =>
      have hder : derivedAvailable DOMAINS net =
          availableDomains (jsEntries (evaluate net ds).1) := by
        unfold derivedAvailable
        rw [hok]
      cases hav : availableDomains (jsEntries (evaluate net ds).1) with
      | nil =>
          rw [hder, hav, handler_no_dispatch DOMAINS net webhook ds hok hav]
          exact ⟨fun _ => rfl, fun hne => absurd rfl hne⟩
      | cons a as =>
          rw [hder, hav]
          cases hwh : webhook (notifyMessage (a :: as)) with
          | none =>
              rw [handler_dispatch_ok DOMAINS net webhook ds a as hok hav hwh]
              exact ⟨fun hc => absurd hc (List.cons_ne_nil a as),
                fun _ => rfl⟩
          | some err =>
              rw [handler_dispatch_fail DOMAINS net webhook ds a as err hok hav hwh]
              exact ⟨fun hc => absurd hc (List.cons_ne_nil a as),
                fun _ => rfl⟩

/-- C9: With the per-invocation network oracle held static (every call for a
domain observes the same response, regardless of when it is made), running
the batch evaluation a second time — its calls being numbered from
`ds.length` onward, continuing after the first run's — yields exactly the
same results record and `hasErrors` value as the first run
(`evaluate net ds = batchLoop net 0 ds ([], false)`). -/
theorem C9_evaluate_idempotent (net : NetOracle) (ds : List String)
    (h : ∀ i d, net i d = net 0 d) :
    batchLoop net ds.length ds ([], false) = evaluate net ds := by
  rw [evaluate]
  exact batchLoop_static h ds ds.length 0 ([], false)

/-- Witness for C9 on a one-domain list with a constant oracle. -/
theorem C9_evaluate_idempotent_witness :
    batchLoop (fun _ _ => .ok (some 3)) (["a.com"].length) ["a.com"] ([], false) =
      evaluate (fun _ _ => .ok (some 3)) ["a.com"] :=
  C9_evaluate_idempotent (fun _ _ => .ok (some 3)) ["a.com"] (fun _ _ => rfl)

/-- C10: When the parsed domain list contains duplicate entries, the results
record keeps a single entry for the duplicated domain, holding the outcome of
the last lookup performed for it (the list is written `l ++ d :: r` with
`d ∉ r`, so the occurrence after `l` is the last one and its network call is
the `l.length`-th); consequently the number of result entries equals the
number of distinct domains, not the input length. -/
theorem C10_duplicates_last_write_wins (net : NetOracle) (l r : List String)
    (d : String) (hr : d ∉ r) :
    List.lookup d (evaluate net (l ++ d :: r)).1 =
      some (mkDomainResult (checkDomainAvailability d (net l.length d))) ∧
    ∀ ds : List String, (evaluate net ds).1.length = ds.dedup.length := by
  constructor
  · rw [evaluate, batchLoop_append, Nat.zero_add, batchLoop,
      lookup_batchLoop_not_mem net r _ _ _ hr, batchStep_fst,
      lookup_recordSet_self]
  · exact length_evaluate net

/-- Witness for C10: the list `["a.com", "a.com"]` against an oracle whose
first answer is NOERROR and whose later answers are NXDOMAIN; the single
entry holds the second (last) lookup's outcome. -/
theorem C10_duplicates_last_write_wins_witness :
    List.lookup "a.com" (evaluate
        (fun i _ => if i = 0 then .ok (some 0) else .ok (some 3))
        (["a.com"] ++ "a.com" :: [])).1 =
      some (mkDomainResult (checkDomainAvailability "a.com"
        ((fun i _ => if i = 0 then FetchOutcome.ok (some 0) else .ok (some 3))
          (["a.com"].length) "a.com"))) ∧
    ∀ ds : List String,
      (evaluate (fun i _ => if i = 0 then FetchOutcome.ok (some 0) else .ok (some 3))
        ds).1.length = ds.dedup.length :=
  C10_duplicates_last_write_wins
    (fun i _ => if i = 0 then FetchOutcome.ok (some 0) else .ok (some 3))
    ["a.com"] [] "a.com" (by simp)

end DomainChecker
